/-
Verification of the ParametersPane widget
(openmdao.gui/src/openmdao/gui/static/js/openmdao/ParametersPane.js).

The widget builds textual commands for a remote service
(add_parameter / remove_parameter / clear_parameters / field assignment),
scans a remote workflow for candidate parameters, runs a modal add-parameter
dialog, and displays the current parameter rows pushed back by the service.

The embedding below models:
  - JavaScript values appearing in the pane (undefined, strings, numbers)
    with their truthiness, since the source guards option clauses with
    plain `if (v)` tests;
  - `String.split` with a one-character separator and `jQuery.trim`,
    as list-of-character functions we can reason about;
  - the command builders `addParameter`, the remove command of the
    delete-click handler, and the clear command;
  - the candidate scan of `promptForParameter` (findComps / findInputs);
  - the dialog Ok/Cancel button behaviour as a small state machine;
  - the pane's event handling (cell edit, delete click, loadData) as a
    step function on an explicit pane state.
-/
import Mathlib

namespace ParametersPane

/-- A JavaScript value as it appears in this widget: `undefined`, a string
(the dialog's text fields all produce strings), or a number (used to model
the low/high fields carried by component inputs). -/
inductive JSVal where
  | undef
  | str (s : String)
  | num (n : Int)
deriving DecidableEq, Repr

/-- JavaScript truthiness restricted to the values above: `undefined` is
falsy, a string is truthy iff nonempty, a number is truthy iff nonzero. -/
def JSVal.truthy : JSVal → Bool
  | .undef => false
  | .str s => s ≠ ""
  | .num n => n ≠ 0

/-- String conversion as performed by JavaScript string concatenation. -/
def JSVal.toStr : JSVal → String
  | .undef => "undefined"
  | .str s => s
  | .num n => toString n

/-- `String.split` with a one-character separator, on the character list:
JS `"".split(",")` is `[""]`, and a trailing separator yields a trailing
empty piece. -/
def splitCharAux (sep : Char) : List Char → List (List Char)
  | [] => [[]]
  | c :: cs =>
    match splitCharAux sep cs with
    | [] => [[]]
    | w :: ws => if c = sep then [] :: w :: ws else (c :: w) :: ws

/-- JS `s.split(sep)` for a one-character separator `sep`. -/
def jsSplit (sep : Char) (s : String) : List String :=
  (splitCharAux sep s.toList).map String.mk

/-- Whitespace as stripped by `jQuery.trim` (ASCII part). -/
def jsWhitespace (c : Char) : Bool :=
  c = ' ' || c = '\t' || c = '\n' || c = '\r'

/-- `jQuery.trim`: strip leading and trailing whitespace. -/
def jsTrim (s : String) : String :=
  String.mk (((s.toList.dropWhile jsWhitespace).reverse.dropWhile jsWhitespace).reverse)

/-- The remove command built by the delete-click handler (lines 60-65 of the
source): if the identity splits on commas into more than one piece it is
emitted bare inside the call parentheses, otherwise double-quoted. -/
def removeCmd (pathname delname : String) : String :=
  if 1 < (jsSplit ',' delname).length then
    pathname ++ ".remove_parameter(" ++ delname ++ ");"
  else
    pathname ++ ".remove_parameter(\"" ++ delname ++ "\");"

/-- `addParameter(target,low,high,scaler,adder,name)` (lines 76-109 of the
source): split the target on commas; a multi-piece target becomes a tuple
of single-quoted trimmed pieces (each followed by a comma), a single-piece
target a single-quoted literal; then option clauses are appended for each
truthy field in the order low, high, scaler, adder, name, the name value
single-quoted, and the command is closed with right paren and semicolon. -/
def addParameter (pathname target : String)
    (low high scaler adder name : JSVal) : String :=
  let targets := jsSplit ',' target
  let cmd :=
    if 1 < targets.length then
      pathname ++ ".add_parameter((" ++
        String.join (targets.map (fun t => "'" ++ jsTrim t ++ "',")) ++ ")"
    else
      pathname ++ ".add_parameter('" ++ target ++ "'"
  let cmd := if low.truthy then cmd ++ ",low=" ++ low.toStr else cmd
  let cmd := if high.truthy then cmd ++ ",high=" ++ high.toStr else cmd
  let cmd := if scaler.truthy then cmd ++ ",scaler=" ++ scaler.toStr else cmd
  let cmd := if adder.truthy then cmd ++ ",adder=" ++ adder.toStr else cmd
  let cmd := if name.truthy then cmd ++ ",name='" ++ name.toStr ++ "'" else cmd
  cmd ++ ");"

/-- `clearParameters` command (line 238 of the source). -/
def clearCmd (pathname : String) : String :=
  pathname ++ ".clear_parameters();"

/-- A declared input of a component, as returned by `getComponent`: a name
and optional `low`/`high` fields (absent fields are `JSVal.undef`). -/
structure InputVar where
  name : String
  low : JSVal
  high : JSVal
deriving DecidableEq, Repr

/-- A workflow component, as returned by `getWorkflow` / `getComponent`:
its full pathname and its declared inputs (`Inputs`); a component lacking
an Inputs list is modelled by an empty list. -/
structure Component where
  pathname : String
  Inputs : List InputVar
deriving DecidableEq, Repr

/-- `comp.pathname.split(. dot).slice(-1)[0]`: the component short name is
the last dot-separated segment of its pathname (line 127 of the source). -/
def shortName (p : String) : String :=
  (jsSplit '.' p).getLastD ""

/-- The bounds recorded for one input (lines 131-140 of the source):
`low`/`high` start as null and are set only when the input's field is
truthy. `none` models null. -/
def inputBounds (i : InputVar) : Option JSVal × Option JSVal :=
  ((if i.low.truthy then some i.low else none),
   (if i.high.truthy then some i.high else none))

/-- One candidate entry pushed by `findInputs` for one input: the name
`shortName.inputName` together with its bounds pair (lines 141-143). -/
def candidateOf (comp : Component) (i : InputVar) :
    String × (Option JSVal × Option JSVal) :=
  (shortName comp.pathname ++ "." ++ i.name, inputBounds i)

/-- The candidates contributed by one component: one entry per input, in
input order (the `findInputs` loop). -/
def scanComponent (comp : Component) :
    List (String × (Option JSVal × Option JSVal)) :=
  comp.Inputs.map (candidateOf comp)

/-- `findComps` (lines 119-147): starting from freshly initialised empty
local `candidates` and `limits`, loop over the workflow's components and
append each component's candidate entries. Per-component fetches may
complete out of order at runtime; here completions are taken in workflow
order, which the claims under verification do not distinguish. -/
def findComps (w : List Component) :
    List (String × (Option JSVal × Option JSVal)) :=
  w.foldl (fun acc comp => acc ++ scanComponent comp) []

/-- The outer `candidates`/`limits` of the pane closure (lines 5-7 of the
source). `findComps` declares locals of the same names, shadowing these. -/
structure ScanState where
  candidates : List String
  limits : List (String × (Option JSVal × Option JSVal))
deriving DecidableEq, Repr

/-- The candidate names offered to the autocomplete by one invocation of
the add dialog (`promptForParameter`): `findComps` shadows the outer
state with fresh empty locals, so the offer depends only on the scanned
workflow, never on the outer `ScanState`. -/
def promptInvocation (outer : ScanState) (w : List Component) : List String :=
  match outer with
  | _ => (findComps w).map Prod.fst

/-- States of the add-parameter dialog: open, closed via Ok, closed via
Cancel. After either button handler runs, the dialog is closed and removed
from the DOM, so further button events are impossible and are absorbed. -/
inductive DialogState where
  | opened
  | closedOk
  | closedCancel
deriving DecidableEq, Repr

/-- Button events a dialog lifetime can see. -/
inductive DialogEvent where
  | okClick
  | cancelClick
deriving DecidableEq, Repr

/-- One dialog transition, carrying the number of callback invocations so
far: Ok on an open dialog closes it and invokes the callback once
(lines 210-220 of the source); Cancel on an open dialog closes it without
invoking the callback (lines 221-229); a closed dialog absorbs events. -/
def dialogStep : DialogState × Nat → DialogEvent → DialogState × Nat
  | (.opened, n), .okClick => (.closedOk, n + 1)
  | (.opened, n), .cancelClick => (.closedCancel, n)
  | (.closedOk, n), _ => (.closedOk, n)
  | (.closedCancel, n), _ => (.closedCancel, n)

/-- A whole dialog lifetime: fold the events over a freshly opened dialog
with zero callback invocations. -/
def dialogRun (evs : List DialogEvent) : DialogState × Nat :=
  evs.foldl dialogStep (.opened, 0)

/-- One displayed parameter row (the grid columns of lines 11-20): a
`name` of `none` models a row object without a name field. -/
structure ParamRow where
  target : String
  low : JSVal := .undef
  high : JSVal := .undef
  scaler : JSVal := .undef
  adder : JSVal := .undef
  fd_step : JSVal := .undef
  name : Option String := none
deriving DecidableEq, Repr

/-- The command built by the delete-click handler for one row
(lines 59-65 of the source): `delname` is the row's `name` field,
unconditionally; when the row has no name field, `delname.split`
throws a TypeError, modelled as an error result. The row's `target`
field is never consulted. -/
def deleteClickCmd (pathname : String) (row : ParamRow) : Except String String :=
  match row.name with
  | some delname => .ok (removeCmd pathname delname)
  | none => .error "TypeError: delname is undefined"

/-- `loadData(properties)` (lines 247-258): a truthy `properties` replaces
the row set wholesale; a falsy one (null/undefined, modelled `none`)
clears the table and raises one alert naming the owning entity. Returns
the new row set and the alerts raised. -/
def loadData (pathname name : String) (properties : Option (List ParamRow)) :
    List ParamRow × List String :=
  match properties with
  | some rows => (rows, [])
  | none => ([], ["Error getting properties for " ++ pathname ++ " (" ++ name ++ ")"])

/-- The pane's observable state: the displayed row set, the commands
issued to the remote service, and the alerts shown to the user. -/
structure PaneState where
  rows : List ParamRow
  issued : List String
  alerts : List String
deriving DecidableEq, Repr

/-- Events the pane reacts to: a committed cell edit (the `name` and
`value` properties read off the edited item, line 52), a click on the
delete cell of a row, and a `loadData` push from the remote service. -/
inductive PaneEvent where
  | cellEdit (itemName itemValue : String)
  | deleteClick (rowIdx : Nat)
  | load (properties : Option (List ParamRow))

/-- The pane's event handling. A cell edit issues the assignment command
(line 52-53) and touches nothing else; a delete click issues the remove
command when the row exists and has a name, and does nothing else (a
missing row or name throws inside the handler, after no mutation); a
`loadData` push replaces the row set and may raise an alert. -/
def paneStep (pathname paneName : String) (st : PaneState) :
    PaneEvent → PaneState
  | .cellEdit itemName itemValue =>
      { st with issued :=
          st.issued ++ [pathname ++ "." ++ itemName ++ "=" ++ itemValue] }
  | .deleteClick rowIdx =>
      match st.rows[rowIdx]? with
      | some row =>
          match deleteClickCmd pathname row with
          | .ok cmd => { st with issued := st.issued ++ [cmd] }
          | .error _ => st
      | none => st
  | .load properties =>
      let r := loadData pathname paneName properties
      { st with rows := r.1, alerts := st.alerts ++ r.2 }

/-- Option-clause suffix of an add command, written from the spec's words:
clauses appear in the fixed order low, high, scaler, adder, name; a clause
is present exactly when its field is truthy, carrying the field's value
verbatim, the name value single-quoted. Used to compare `addParameter`
against the spec. -/
def specOptionSuffix (low high scaler adder name : JSVal) : String :=
  (if low.truthy then ",low=" ++ low.toStr else "")
  ++ (if high.truthy then ",high=" ++ high.toStr else "")
  ++ (if scaler.truthy then ",scaler=" ++ scaler.toStr else "")
  ++ (if adder.truthy then ",adder=" ++ adder.toStr else "")
  ++ (if name.truthy then ",name='" ++ name.toStr ++ "'" else "")

/-- Single-target add command as the spec words it: the target as one
single-quoted literal, then the option suffix, then the closing. -/
def specSingleAddCmd (pathname target : String)
    (low high scaler adder name : JSVal) : String :=
  pathname ++ ".add_parameter('" ++ target ++ "'"
    ++ specOptionSuffix low high scaler adder name ++ ");"

/-- Group add command as the spec words it: a tuple-style literal listing
the given members in order, each single-quoted and followed by a comma,
then the option suffix, then the closing. -/
def specGroupAddCmd (pathname : String) (members : List String)
    (low high scaler adder name : JSVal) : String :=
  pathname ++ ".add_parameter(("
    ++ String.join (members.map (fun m => "'" ++ m ++ "',")) ++ ")"
    ++ specOptionSuffix low high scaler adder name ++ ");"

theorem splitCharAux_ne_nil (sep : Char) (l : List Char) : splitCharAux sep l ≠ [] := by
  induction l with
  | nil => simp [splitCharAux]
  | cons c cs ih =>
    cases h : splitCharAux sep cs with
    | nil => exact absurd h ih
    | cons w ws =>
      simp only [splitCharAux, h]
      split <;> simp

theorem one_lt_splitCharAux_length (sep : Char) (l : List Char) :
    1 < (splitCharAux sep l).length ↔ sep ∈ l := by
  induction l with
  | nil => simp [splitCharAux]
  | cons c cs ih =>
    cases h : splitCharAux sep cs with
    | nil => exact absurd h (splitCharAux_ne_nil sep cs)
    | cons w ws =>
      rw [h] at ih
      simp only [splitCharAux, h]
      by_cases hc : c = sep
      · subst hc
        simp
      · rw [if_neg hc]
        simp only [List.length_cons, List.mem_cons]
        constructor
        · intro hlen
          exact Or.inr (ih.mp hlen)
        · intro hmem
          rcases hmem with hmem | hmem
          · exact absurd hmem.symm hc
          · exact ih.mpr hmem

/-- JS `s.split(sep)` has more than one piece exactly when `sep` occurs. -/
theorem jsSplit_one_lt_iff (sep : Char) (s : String) :
    1 < (jsSplit sep s).length ↔ sep ∈ s.toList := by
  rw [jsSplit, List.length_map, one_lt_splitCharAux_length]

theorem findComps_acc (w : List Component)
    (acc : List (String × (Option JSVal × Option JSVal))) :
    w.foldl (fun a comp => a ++ scanComponent comp) acc
      = acc ++ (w.map scanComponent).flatten := by
  induction w generalizing acc with
  | nil => simp
  | cons comp w ih => simp [List.foldl, ih]

theorem findComps_eq_flatten (w : List Component) :
    findComps w = (w.map scanComponent).flatten := by
  rw [findComps, findComps_acc, List.nil_append]

/-- C1: the claim states that a group identity (one containing a comma) is
removed with an extra tuple parenthesisation, `path.remove_parameter((a.x,a.y));`.
The code (line 61) emits the identity bare inside the single call
parentheses: the built command is `path.remove_parameter(a.x,a.y);`, which
differs from the claimed text. -/
theorem removeCmd_group_counterexample :
    removeCmd "path" "a.x,a.y" = "path.remove_parameter(a.x,a.y);" ∧
    removeCmd "path" "a.x,a.y" ≠ "path.remove_parameter((a.x,a.y));" := by
  constructor
  · decide
  · decide

/-- C1 (amended): for an identity containing a comma the remove command is
the entity path, `.remove_parameter(`, the identity emitted literally and
unquoted with no additional tuple parentheses, then `);`; for an identity
without a comma the identity is emitted as one double-quoted literal. -/
theorem removeCmd_format (pathname delname : String) :
    removeCmd pathname delname =
      if ',' ∈ delname.toList then
        pathname ++ ".remove_parameter(" ++ delname ++ ");"
      else
        pathname ++ ".remove_parameter(\"" ++ delname ++ "\");" := by
  simp only [removeCmd, jsSplit_one_lt_iff]

/-- C2: adding the single target comp1.x with low "0", high "10" and empty
scaler, adder and name (the dialog's text fields produce strings, and the
string "0" is truthy in JavaScript) yields exactly
`path.add_parameter('comp1.x',low=0,high=10);` - the low=0 clause is
included. -/
theorem addParameter_low_zero_included :
    addParameter "path" "comp1.x" (.str "0") (.str "10") (.str "") (.str "") (.str "")
      = "path.add_parameter('comp1.x',low=0,high=10);" := by
  decide

/-- C3: for every single (non-grouped) target - one whose text contains no
comma - and every combination of the five optional fields, `addParameter`
agrees with the spec-side builder: each option clause is omitted exactly
when its field is falsy (empty string, undefined, zero) and otherwise
carries the value verbatim, in the fixed order low, high, scaler, adder,
name, with the name value single-quoted. -/
theorem addParameter_single_spec (pathname target : String)
    (low high scaler adder name : JSVal) (hnc : ',' ∉ target.toList) :
    addParameter pathname target low high scaler adder name
      = specSingleAddCmd pathname target low high scaler adder name := by
  have hlen : ¬ 1 < (jsSplit ',' target).length := by
    rw [jsSplit_one_lt_iff]
    exact hnc
  simp only [addParameter, specSingleAddCmd, specOptionSuffix, if_neg hlen]
  split_ifs <;>
    simp only [String.append_assoc, String.append_empty, String.empty_append]

theorem addParameter_single_spec_witness :
    addParameter "path" "comp1.x" (.str "") (.num 5) .undef (.str "2") (.str "nm")
      = specSingleAddCmd "path" "comp1.x" (.str "") (.num 5) .undef (.str "2") (.str "nm") :=
  addParameter_single_spec "path" "comp1.x" (.str "") (.num 5) .undef (.str "2") (.str "nm")
    (by decide)

/-- C4: for every comma-containing multi-target input, `addParameter`
emits the group form: a tuple-style literal listing exactly the trimmed
split pieces, single-quoted, in original order (each followed by a comma),
then the option clauses. -/
theorem addParameter_group_spec (pathname target : String)
    (low high scaler adder name : JSVal) (hc : ',' ∈ target.toList) :
    addParameter pathname target low high scaler adder name
      = specGroupAddCmd pathname ((jsSplit ',' target).map jsTrim)
          low high scaler adder name := by
  have hlen : 1 < (jsSplit ',' target).length := (jsSplit_one_lt_iff ',' target).mpr hc
  simp only [addParameter, specGroupAddCmd, specOptionSuffix, if_pos hlen,
    List.map_map, Function.comp_def]
  split_ifs <;>
    simp only [String.append_assoc, String.append_empty, String.empty_append]

theorem addParameter_group_spec_witness :
    addParameter "path" " a.x , a.y " (.str "") (.str "") (.str "") (.str "") (.str "grp1")
      = "path.add_parameter(('a.x','a.y',),name='grp1');" :=
  (addParameter_group_spec "path" " a.x , a.y "
    (.str "") (.str "") (.str "") (.str "") (.str "grp1") (by decide)).trans (by decide)

/-- C5: the claim states that the delete identity is the row's name field
if present and otherwise its target field. The code (line 59) reads the
name field unconditionally: on a row whose name is absent and whose target
is "a.x", the handler does not build the remove command for "a.x" (it
fails with a TypeError on `delname.split`), refuting the fallback. -/
theorem deleteIdentity_counterexample :
    deleteClickCmd "path" { target := "a.x" } = .error "TypeError: delname is undefined" ∧
    deleteClickCmd "path" { target := "a.x" } ≠ .ok (removeCmd "path" "a.x") := by
  constructor
  · rfl
  · simp [deleteClickCmd]

/-- C5 (amended): the identity used when a row's delete control is clicked
is always the row's name field; there is no fallback to the target field,
and a row without a name field makes the handler fail with a TypeError. -/
theorem deleteIdentity_always_name (pathname : String) (row : ParamRow) :
    (∀ delname, row.name = some delname →
        deleteClickCmd pathname row = .ok (removeCmd pathname delname)) ∧
    (row.name = none →
        deleteClickCmd pathname row = .error "TypeError: delname is undefined") := by
  constructor
  · intro delname hd
    simp [deleteClickCmd, hd]
  · intro hn
    simp [deleteClickCmd, hn]

theorem deleteIdentity_always_name_witness :
    deleteClickCmd "path" { target := "a.x", name := some "p1" }
      = .ok (removeCmd "path" "p1") :=
  (deleteIdentity_always_name "path" { target := "a.x", name := some "p1" }).1 "p1" rfl

/-- C6: the candidate scan yields no candidate for a component without
inputs; it yields exactly one candidate per (component, input) pair
(the total count is the sum of input counts, and each input of a component
contributes the entry named shortName.inputName with its bounds); and an
input on which neither low nor high is truthy gets the bounds pair
(none, none), modelling the JS null pair. -/
theorem scan_candidates_shape :
    (∀ comp : Component, comp.Inputs = [] → scanComponent comp = []) ∧
    (∀ w : List Component,
        (findComps w).length = (w.map (fun comp => comp.Inputs.length)).sum) ∧
    (∀ (comp : Component) (i : InputVar), i ∈ comp.Inputs →
        (shortName comp.pathname ++ "." ++ i.name, inputBounds i) ∈ scanComponent comp) ∧
    (∀ i : InputVar, i.low.truthy = false → i.high.truthy = false →
        inputBounds i = (none, none)) := by
  refine ⟨?_, ?_, ?_, ?_⟩
  · intro comp h
    simp [scanComponent, h]
  · intro w
    rw [findComps_eq_flatten, List.length_flatten, List.map_map]
    congr 1
    apply List.map_congr_left
    intro comp _
    simp [scanComponent]
  · intro comp i hi
    exact List.mem_map.mpr ⟨i, hi, rfl⟩
  · intro i hlow hhigh
    simp [inputBounds, hlow, hhigh]

theorem scan_candidates_shape_witness :
    scanComponent { pathname := "top.c1", Inputs := [] } = [] ∧
    (shortName "top.c1" ++ "." ++ "x", inputBounds ⟨"x", .undef, .undef⟩)
      ∈ scanComponent { pathname := "top.c1", Inputs := [⟨"x", .undef, .undef⟩] } ∧
    inputBounds { name := "x", low := .undef, high := .str "" } = (none, none) :=
  ⟨scan_candidates_shape.1 { pathname := "top.c1", Inputs := [] } rfl,
   scan_candidates_shape.2.2.1 { pathname := "top.c1", Inputs := [⟨"x", .undef, .undef⟩] }
     ⟨"x", .undef, .undef⟩ (by simp),
   scan_candidates_shape.2.2.2 { name := "x", low := .undef, high := .str "" }
     (by decide) (by decide)⟩

/-- C7: `loadData` with a present rows value replaces the displayed row
set with exactly those rows and raises no alert; with a falsy value
(null/undefined, modelled `none`) it sets the row set to the empty list
and raises exactly one alert naming the owning entity - and, being a
total function, it never throws. -/
theorem loadData_replaces_or_clears (pathname name : String) :
    (∀ rows : List ParamRow, loadData pathname name (some rows) = (rows, [])) ∧
    (loadData pathname name none
      = ([], ["Error getting properties for " ++ pathname ++ " (" ++ name ++ ")"])) := by
  exact ⟨fun rows => rfl, rfl⟩

theorem dialogRun_inv (evs : List DialogEvent) (p : DialogState × Nat)
    (hp : p = (.opened, 0) ∨ p = (.closedOk, 1) ∨ p = (.closedCancel, 0)) :
    evs.foldl dialogStep p = (.opened, 0)
      ∨ evs.foldl dialogStep p = (.closedOk, 1)
      ∨ evs.foldl dialogStep p = (.closedCancel, 0) := by
  induction evs generalizing p with
  | nil => exact hp
  | cons e evs ih =>
    rw [List.foldl_cons]
    apply ih
    rcases hp with h | h | h <;> subst h <;> cases e <;> simp [dialogStep]

/-- C8: over every possible lifetime of one add-parameter dialog (every
sequence of Ok/Cancel button events applied to a freshly opened dialog),
the callback runs at most once, and it runs exactly once if and only if
the dialog ended closed via Ok; a lifetime ending in Cancel (or never
closed) never ran the callback. -/
theorem dialog_callback_once_iff_ok (evs : List DialogEvent) :
    (dialogRun evs).2 ≤ 1 ∧
    ((dialogRun evs).2 = 1 ↔ (dialogRun evs).1 = .closedOk) := by
  have h := dialogRun_inv evs (.opened, 0) (Or.inl rfl)
  rw [dialogRun]
  rcases h with h | h | h <;> rw [h] <;> simp

/-- C9: `findComps` initialises its candidate accumulator empty on every
invocation and shadows the pane's outer scratch state, so the candidate
names offered by an add dialog do not depend on any earlier invocation,
and every offered candidate arises from a (component, input) pair of the
currently scanned workflow - a candidate gathered in an earlier scan that
does not arise from the current workflow is never offered. -/
theorem candidates_fresh_per_invocation :
    (∀ (outer1 outer2 : ScanState) (w : List Component),
        promptInvocation outer1 w = promptInvocation outer2 w) ∧
    (∀ (outer : ScanState) (w : List Component) (c : String),
        c ∈ promptInvocation outer w →
        ∃ comp, comp ∈ w ∧ ∃ i, i ∈ comp.Inputs ∧
          c = shortName comp.pathname ++ "." ++ i.name) := by
  constructor
  · intro outer1 outer2 w
    rfl
  · intro outer w c hc
    simp only [promptInvocation, findComps_eq_flatten] at hc
    obtain ⟨pair, hpair, hfst⟩ := List.mem_map.mp hc
    obtain ⟨l, hl, hpl⟩ := List.mem_flatten.mp hpair
    obtain ⟨comp, hcomp, rfl⟩ := List.mem_map.mp hl
    obtain ⟨i, hi, rfl⟩ := List.mem_map.mp hpl
    exact ⟨comp, hcomp, i, hi, hfst.symm⟩

theorem candidates_fresh_witness :
    ∃ comp, comp ∈ [Component.mk "top.c1" [InputVar.mk "x" .undef .undef]] ∧
      ∃ i, i ∈ comp.Inputs ∧ "c1.x" = shortName comp.pathname ++ "." ++ i.name :=
  candidates_fresh_per_invocation.2 { candidates := [], limits := [] }
    [Component.mk "top.c1" [InputVar.mk "x" .undef .undef]] "c1.x" (by decide)

/-- C10: a cell-edit commit and a delete click leave the displayed row set
unchanged (they only issue a command, or throw without mutating); only a
`loadData` push changes the row set, to exactly what `loadData` computes
from the pushed value. -/
theorem rows_change_only_on_load (pathname paneName : String) (st : PaneState) :
    (∀ itemName itemValue,
        (paneStep pathname paneName st (.cellEdit itemName itemValue)).rows = st.rows) ∧
    (∀ rowIdx, (paneStep pathname paneName st (.deleteClick rowIdx)).rows = st.rows) ∧
    (∀ properties, (paneStep pathname paneName st (.load properties)).rows
        = (loadData pathname paneName properties).1) := by
  refine ⟨fun _ _ => rfl, ?_, fun properties => rfl⟩
  intro rowIdx
  cases h : st.rows[rowIdx]? with
  | none => simp [paneStep, h]
  | some row => cases hc : deleteClickCmd pathname row <;> simp [paneStep, h, hc]

end ParametersPane
